import Mathlib

/-!
# Region file block locator and image height sampler of godot_voxel

A shallow embedding of

* `VoxelRegionBlockInfo` (`streams/region/region_file.h`): the packed 32-bit
  block locator, `AAAB` = 3 bytes of sector index, 1 byte of sector count;
* the index/position mapping of `VoxelRegionFile` (declared in
  `streams/region/region_file.h`);
* the height sampler lambda of `VoxelGeneratorImage::generate_block`
  (`generators/simple/voxel_generator_image.cpp`).

Conventions.  A `uint32_t` is a natural number below `2 ^ 32`; an operation
that can leave that range in C++ is followed by an explicit `% 2 ^ 32`.
`CRASH_COND(c)` aborts the process when `c` holds: a function guarded by it
returns `none` on the crash and `some` of the new state otherwise.
-/

/-! ## Block locator -/

/-- Packed locator `struct VoxelRegionBlockInfo`; `data` is the `uint32_t`
word, `0` by default. -/
structure VoxelRegionBlockInfo where
  data : Nat := 0
deriving DecidableEq, Repr

namespace VoxelRegionBlockInfo

/-- Constant `static const unsigned int MAX_SECTOR_INDEX = 0xffffff`. -/
def MAX_SECTOR_INDEX : Nat := 0xffffff

/-- Constant `static const unsigned int MAX_SECTOR_COUNT = 0xff`. -/
def MAX_SECTOR_COUNT : Nat := 0xff

/-- Source: `return data >> 8;` -/
def get_sector_index (b : VoxelRegionBlockInfo) : Nat :=
  b.data >>> 8

/-- Source: `CRASH_COND(i > MAX_SECTOR_INDEX); data = (i << 8) | (data & 0xff);`
The shift is a 32-bit one, hence the reduction modulo `2 ^ 32`. -/
def set_sector_index (b : VoxelRegionBlockInfo) (i : Nat) : Option VoxelRegionBlockInfo :=
  if i > MAX_SECTOR_INDEX then none
  else some { data := ((i <<< 8) % 2 ^ 32) ||| (b.data &&& 0xff) }

/-- Source: `return data & 0xff;` -/
def get_sector_count (b : VoxelRegionBlockInfo) : Nat :=
  b.data &&& 0xff

/-- Source: `CRASH_COND(c > 0xff); data = (c & 0xff) | (data & 0xffffff00);` -/
def set_sector_count (b : VoxelRegionBlockInfo) (c : Nat) : Option VoxelRegionBlockInfo :=
  if c > 0xff then none
  else some { data := (c &&& 0xff) ||| (b.data &&& 0xffffff00) }

/-- One mutating call on a locator. -/
inductive Call where
  | set_index (i : Nat)
  | set_count (c : Nat)
deriving DecidableEq, Repr

/-- Performs one call; `none` when the call crashes. -/
def call (b : VoxelRegionBlockInfo) : Call → Option VoxelRegionBlockInfo
  | .set_index i => b.set_sector_index i
  | .set_count c => b.set_sector_count c

/-- Performs a sequence of calls from left to right, stopping at the first
crash. -/
def calls (b : VoxelRegionBlockInfo) : List Call → Option VoxelRegionBlockInfo
  | [] => some b
  | k :: ks => (b.call k).bind fun b1 => calls b1 ks

end VoxelRegionBlockInfo

/-! ## Index/position mapping of the region grid -/

/-- Integer vector `Vector3i` (three `int` components), the type of
`VoxelRegionFormat::region_size` and of block positions. -/
structure Vector3i where
  x : Int
  y : Int
  z : Int
deriving DecidableEq, Repr

namespace VoxelRegionFile

/-- Modelled from the spec: the body of `VoxelRegionFile::get_block_index_in_header`
is in `region_file.cpp`, which is missing; only its declaration
`unsigned int get_block_index_in_header(const Vector3i &rpos) const` is present.
The spec calls the mapping from a 3D grid position to the flat index "a fixed
row-major convention", "a single deterministic linearization function" onto the
`region_size.x * region_size.y * region_size.z` entries of the table: rows run
along `x`, rows follow each other along `y`, slabs along `z`. -/
def get_block_index_in_header (region_size rpos : Vector3i) : Nat :=
  (rpos.x + region_size.x * (rpos.y + region_size.y * rpos.z)).toNat

/-- Modelled from the spec: the body of `VoxelRegionFile::get_block_position_from_index`
is in `region_file.cpp`, which is missing; only its declaration
`Vector3i get_block_position_from_index(uint32_t i) const` is present.  It
reads a flat index back in the same row-major convention. -/
def get_block_position_from_index (region_size : Vector3i) (i : Nat) : Vector3i :=
  { x := (i : Int) % region_size.x
    y := (i : Int) / region_size.x % region_size.y
    z := (i : Int) / (region_size.x * region_size.y) }

end VoxelRegionFile

/-! ## Height sampler of the image generator -/

/-- The `float` operations the sampler uses.  Their rounding is not modelled:
`zero` is the literal `0.0f`, `fifth` the literal `0.2f`. -/
structure FloatOps (F : Type) where
  zero : F
  fifth : F
  add : F → F → F
  mul : F → F → F

/-- What the sampler reads of a Godot `Image`: `get_width()`, `get_height()`
(both `int`) and the red component of `get_pixel(x, y)`. -/
structure Image (F : Type) where
  get_width : Int
  get_height : Int
  get_pixel_r : Int → Int → F

namespace VoxelGeneratorImage

/-- Source: `return im.get_pixel(wrap(x, im.get_width()), wrap(y, im.get_height())).r;`
The helper `wrap` of `util/math/funcs.h` is not among the sources and is a
parameter. -/
def get_height_repeat {F : Type} (wrap : Int → Int → Int) (im : Image F) (x y : Int) : F :=
  im.get_pixel_r (wrap x im.get_width) (wrap y im.get_height)

/-- Source: `get_height_blurred`, the sum of the sample and its four
neighbours, times `0.2f`. -/
def get_height_blurred {F : Type} (A : FloatOps F) (wrap : Int → Int → Int) (im : Image F)
    (x y : Int) : F :=
  let h := get_height_repeat wrap im x y
  let h := A.add h (get_height_repeat wrap im (x + 1) y)
  let h := A.add h (get_height_repeat wrap im (x - 1) y)
  let h := A.add h (get_height_repeat wrap im x (y + 1))
  let h := A.add h (get_height_repeat wrap im x (y - 1))
  A.mul h A.fifth

/-- The lambda `[&image, blur_enabled, repeat_enabled, centered](int x, int z)`
that `generate_block` passes to `VoxelGeneratorHeightmap::generate`.
`image.get_width() / 2` divides two `int`s, so it truncates (`Int.tdiv`);
`ceil` of the resulting integer and the cast back to `int` change nothing.
The `int` coordinates are mathematical integers here: signed overflow of
`x += ...` is undefined in C++ and is not modelled. -/
def height_sampler {F : Type} (A : FloatOps F) (wrap : Int → Int → Int) (image : Image F)
    (blur_enabled repeat_enabled centered : Bool) (x z : Int) : F :=
  let x := if centered then x + max 0 (Int.tdiv image.get_width 2) else x
  let z := if centered then z + max 0 (Int.tdiv image.get_height 2) else z
  if !repeat_enabled && (decide (x < 0) || decide (z < 0) || decide (x ≥ image.get_width)
      || decide (z ≥ image.get_height)) then
    A.zero
  else if blur_enabled then get_height_blurred A wrap image x z
  else get_height_repeat wrap image x z

end VoxelGeneratorImage

/-! ## Arithmetic reading of the masks and shifts -/

theorem and_low_byte (d : Nat) : d &&& 0xff = d % 256 :=
  Nat.and_pow_two_sub_one_eq_mod d 8

theorem and_high_bytes (d : Nat) : d &&& 0xffffff00 = d / 256 % 2 ^ 24 * 256 := by
  apply Nat.eq_of_testBit_eq
  intro j
  have h1 : (0xffffff00 : Nat) = (2 ^ 24 - 1) <<< 8 := by decide
  have h2 : d / 256 % 2 ^ 24 * 256 = ((d >>> 8) % 2 ^ 24) <<< 8 := by
    rw [Nat.shiftLeft_eq, Nat.shiftRight_eq_div_pow]
  rw [h1, h2, Nat.testBit_and, Nat.testBit_shiftLeft, Nat.testBit_two_pow_sub_one,
    Nat.testBit_shiftLeft, Nat.testBit_mod_two_pow, Nat.testBit_shiftRight]
  by_cases hj : 8 ≤ j
  · have e : 8 + (j - 8) = j := by omega
    by_cases hj2 : j - 8 < 24 <;> simp [hj, hj2, e]
  · simp [hj]

theorem shl8_u32 (i : Nat) : (i <<< 8) % 2 ^ 32 = i % 2 ^ 24 * 256 := by
  rw [Nat.shiftLeft_eq]
  omega

theorem or_high_low (a b : Nat) (hb : b < 256) : a * 256 ||| b = a * 256 + b := by
  have h := Nat.mul_add_lt_is_or (i := 8) (b := b) (by simpa using hb) a
  have e : (2 : Nat) ^ 8 * a = a * 256 := by omega
  rw [e] at h
  exact h.symm

theorem or_low_high (a b : Nat) (hb : b < 256) : b ||| a * 256 = a * 256 + b := by
  rw [Nat.lor_comm, or_high_low a b hb]

theorem set_sector_index_data (d i : Nat) :
    ((i <<< 8) % 2 ^ 32) ||| (d &&& 0xff) = i % 2 ^ 24 * 256 + d % 256 := by
  rw [shl8_u32, and_low_byte, or_high_low _ _ (Nat.mod_lt _ (by decide))]

theorem set_sector_count_data (d c : Nat) :
    (c &&& 0xff) ||| (d &&& 0xffffff00) = d / 256 % 2 ^ 24 * 256 + c % 256 := by
  rw [and_low_byte, and_high_bytes, or_low_high _ _ (Nat.mod_lt _ (by decide))]

theorem get_sector_index_eq (b : VoxelRegionBlockInfo) : b.get_sector_index = b.data / 256 := by
  unfold VoxelRegionBlockInfo.get_sector_index
  rw [Nat.shiftRight_eq_div_pow]

theorem get_sector_count_eq (b : VoxelRegionBlockInfo) : b.get_sector_count = b.data % 256 := by
  unfold VoxelRegionBlockInfo.get_sector_count
  exact and_low_byte _

theorem set_sector_index_eq (b : VoxelRegionBlockInfo) (i : Nat) :
    b.set_sector_index i =
      if i > 0xffffff then none else some { data := i % 2 ^ 24 * 256 + b.data % 256 } := by
  unfold VoxelRegionBlockInfo.set_sector_index VoxelRegionBlockInfo.MAX_SECTOR_INDEX
  rw [set_sector_index_data]

theorem set_sector_count_eq (b : VoxelRegionBlockInfo) (c : Nat) :
    b.set_sector_count c =
      if c > 0xff then none else some { data := b.data / 256 % 2 ^ 24 * 256 + c % 256 } := by
  unfold VoxelRegionBlockInfo.set_sector_count
  rw [set_sector_count_data]

theorem set_sector_index_u32 (b b1 : VoxelRegionBlockInfo) (i : Nat)
    (h : b.set_sector_index i = some b1) : b1.data < 2 ^ 32 := by
  rw [set_sector_index_eq] at h
  split at h
  · cases h
  · cases h
    show i % 2 ^ 24 * 256 + b.data % 256 < 2 ^ 32
    omega

theorem set_sector_count_u32 (b b1 : VoxelRegionBlockInfo) (c : Nat)
    (h : b.set_sector_count c = some b1) : b1.data < 2 ^ 32 := by
  rw [set_sector_count_eq] at h
  split at h
  · cases h
  · cases h
    show b.data / 256 % 2 ^ 24 * 256 + c % 256 < 2 ^ 32
    omega

theorem call_u32 (b b1 : VoxelRegionBlockInfo) (k : VoxelRegionBlockInfo.Call)
    (h : b.call k = some b1) : b1.data < 2 ^ 32 := by
  cases k with
  | set_index i => exact set_sector_index_u32 b b1 i h
  | set_count c => exact set_sector_count_u32 b b1 c h

theorem calls_u32 (ks : List VoxelRegionBlockInfo.Call) :
    ∀ b b1 : VoxelRegionBlockInfo, b.data < 2 ^ 32 → b.calls ks = some b1 →
      b1.data < 2 ^ 32 := by
  induction ks with
  | nil =>
    intro b b1 hb h
    simp only [VoxelRegionBlockInfo.calls, Option.some.injEq] at h
    exact h ▸ hb
  | cons k ks ih =>
    intro b b1 _ h
    simp only [VoxelRegionBlockInfo.calls] at h
    cases hk : b.call k with
    | none => rw [hk] at h; cases h
    | some b2 =>
      rw [hk] at h
      exact ih b2 b1 (call_u32 b b2 k hk) h

theorem u32_fields_bounded (b : VoxelRegionBlockInfo) (hb : b.data < 2 ^ 32) :
    b.get_sector_index ≤ 2 ^ 24 - 1 ∧ b.get_sector_count ≤ 255 := by
  rw [get_sector_index_eq, get_sector_count_eq]
  omega

/-! ## The block locator: claims -/

/-- C1: `set_sector_index(i)` crashes exactly when `i > 2^24 - 1`, whatever
the locator; `MAX_SECTOR_INDEX` is `2^24 - 1`; the index `2^24 - 1` is accepted
and `2^24` crashes. -/
theorem set_sector_index_crashes_iff (b : VoxelRegionBlockInfo) (i : Nat) :
    (b.set_sector_index i = none ↔ i > 2 ^ 24 - 1) ∧
    VoxelRegionBlockInfo.MAX_SECTOR_INDEX = 2 ^ 24 - 1 ∧
    (b.set_sector_index (2 ^ 24 - 1)).isSome = true ∧
    b.set_sector_index (2 ^ 24) = none := by
  refine ⟨?_, by decide, ?_, ?_⟩
  · rw [set_sector_index_eq]
    split <;> simp <;> omega
  · rw [set_sector_index_eq]
    simp
  · rw [set_sector_index_eq]
    simp

/-- C2: `set_sector_count(c)` crashes exactly when `c > 255`, whatever the
locator; `MAX_SECTOR_COUNT` is `255`; the count `255` is accepted and `256`
crashes. -/
theorem set_sector_count_crashes_iff (b : VoxelRegionBlockInfo) (c : Nat) :
    (b.set_sector_count c = none ↔ c > 255) ∧
    VoxelRegionBlockInfo.MAX_SECTOR_COUNT = 255 ∧
    (b.set_sector_count 255).isSome = true ∧
    b.set_sector_count 256 = none := by
  refine ⟨?_, by decide, ?_, ?_⟩
  · rw [set_sector_count_eq]
    split <;> simp <;> omega
  · rw [set_sector_count_eq]
    simp
  · rw [set_sector_count_eq]
    simp

/-- C3: for a locator holding any 32-bit word and any `i ≤ 2^24 - 1`,
`set_sector_index(i)` returns and `get_sector_index()` then gives `i` back. -/
theorem sector_index_round_trip (b : VoxelRegionBlockInfo) (i : Nat)
    (_hb : b.data < 2 ^ 32) (hi : i ≤ 2 ^ 24 - 1) :
    (b.set_sector_index i).map VoxelRegionBlockInfo.get_sector_index = some i := by
  rw [set_sector_index_eq, if_neg (by omega)]
  simp only [Option.map_some', get_sector_index_eq, Option.some.injEq]
  omega

theorem sector_index_round_trip_witness :
    (⟨0xdeadbeef⟩ : VoxelRegionBlockInfo).data < 2 ^ 32 ∧ 0xffffff ≤ 2 ^ 24 - 1 ∧
    ((⟨0xdeadbeef⟩ : VoxelRegionBlockInfo).set_sector_index 0xffffff).map
      VoxelRegionBlockInfo.get_sector_index = some 0xffffff :=
  ⟨by decide, by decide,
    sector_index_round_trip ⟨0xdeadbeef⟩ 0xffffff (by decide) (by decide)⟩

/-- C4: for a locator holding any 32-bit word and any `c ≤ 255`,
`set_sector_count(c)` returns and `get_sector_count()` then gives `c` back. -/
theorem sector_count_round_trip (b : VoxelRegionBlockInfo) (c : Nat)
    (_hb : b.data < 2 ^ 32) (hc : c ≤ 255) :
    (b.set_sector_count c).map VoxelRegionBlockInfo.get_sector_count = some c := by
  rw [set_sector_count_eq, if_neg (by omega)]
  simp only [Option.map_some', get_sector_count_eq, Option.some.injEq]
  omega

theorem sector_count_round_trip_witness :
    (⟨0xdeadbeef⟩ : VoxelRegionBlockInfo).data < 2 ^ 32 ∧ 0xff ≤ 255 ∧
    ((⟨0xdeadbeef⟩ : VoxelRegionBlockInfo).set_sector_count 0xff).map
      VoxelRegionBlockInfo.get_sector_count = some 0xff :=
  ⟨by decide, by decide,
    sector_count_round_trip ⟨0xdeadbeef⟩ 0xff (by decide) (by decide)⟩

/-- C5: a locator `b` reached from the default one by calls that all
returned holds a 32-bit word with `get_sector_index() ≤ 2^24 - 1` and
`get_sector_count() ≤ 255`; the two bounds hold for every locator `w` holding
a 32-bit word. -/
theorem locator_capacity_invariant (ks : List VoxelRegionBlockInfo.Call)
    (b w : VoxelRegionBlockInfo)
    (hreach : ({} : VoxelRegionBlockInfo).calls ks = some b) (hw : w.data < 2 ^ 32) :
    (b.data < 2 ^ 32 ∧ b.get_sector_index ≤ 2 ^ 24 - 1 ∧ b.get_sector_count ≤ 255) ∧
    (w.get_sector_index ≤ 2 ^ 24 - 1 ∧ w.get_sector_count ≤ 255) := by
  have hb : b.data < 2 ^ 32 := calls_u32 ks {} b (by decide) hreach
  exact ⟨⟨hb, u32_fields_bounded b hb⟩, u32_fields_bounded w hw⟩

theorem locator_capacity_invariant_witness :
    ({} : VoxelRegionBlockInfo).calls [.set_index 0xffffff, .set_count 0xff]
      = some ⟨0xffffffff⟩ ∧
    (⟨0x12345678⟩ : VoxelRegionBlockInfo).data < 2 ^ 32 ∧
    ((⟨0xffffffff⟩ : VoxelRegionBlockInfo).data < 2 ^ 32 ∧
      (⟨0xffffffff⟩ : VoxelRegionBlockInfo).get_sector_index ≤ 2 ^ 24 - 1 ∧
      (⟨0xffffffff⟩ : VoxelRegionBlockInfo).get_sector_count ≤ 255) ∧
    ((⟨0x12345678⟩ : VoxelRegionBlockInfo).get_sector_index ≤ 2 ^ 24 - 1 ∧
      (⟨0x12345678⟩ : VoxelRegionBlockInfo).get_sector_count ≤ 255) :=
  ⟨by decide, by decide,
    locator_capacity_invariant [.set_index 0xffffff, .set_count 0xff] ⟨0xffffffff⟩
      ⟨0x12345678⟩ (by decide) (by decide)⟩

/-- C6: the default locator is the zero word and reports sector index 0 and
sector count 0; a locator is the zero word (equivalently, is the default
locator) exactly when its sector index and its sector count are both 0. -/
theorem sentinel_locator_iff (b : VoxelRegionBlockInfo) :
    (({} : VoxelRegionBlockInfo).data = 0 ∧
      ({} : VoxelRegionBlockInfo).get_sector_index = 0 ∧
      ({} : VoxelRegionBlockInfo).get_sector_count = 0) ∧
    (b.data = 0 ↔ b.get_sector_index = 0 ∧ b.get_sector_count = 0) ∧
    (b = {} ↔ b.get_sector_index = 0 ∧ b.get_sector_count = 0) := by
  have key : b.data = 0 ↔ b.get_sector_index = 0 ∧ b.get_sector_count = 0 := by
    rw [get_sector_index_eq, get_sector_count_eq]
    omega
  refine ⟨by decide, key, ?_⟩
  rw [← key]
  cases b
  simp

/-- C8: from any locator, for `i ≤ 2^24 - 1` and `c ≤ 255`, the two setters
applied in either order both return and leave the word `i * 256 + c`, a
32-bit word whose upper 24 bits read back as `i` and low 8 bits as `c`. -/
theorem packed_layout (b : VoxelRegionBlockInfo) (i c : Nat)
    (hi : i ≤ 2 ^ 24 - 1) (hc : c ≤ 255) :
    (b.set_sector_index i).bind (fun b1 => b1.set_sector_count c) = some ⟨i * 256 + c⟩ ∧
    (b.set_sector_count c).bind (fun b1 => b1.set_sector_index i) = some ⟨i * 256 + c⟩ ∧
    i * 256 + c < 2 ^ 32 ∧
    (⟨i * 256 + c⟩ : VoxelRegionBlockInfo).get_sector_index = i ∧
    (⟨i * 256 + c⟩ : VoxelRegionBlockInfo).get_sector_count = c := by
  refine ⟨?_, ?_, by omega, ?_, ?_⟩
  · rw [set_sector_index_eq, if_neg (by omega), Option.some_bind,
      set_sector_count_eq, if_neg (by omega)]
    simp only [Option.some.injEq, VoxelRegionBlockInfo.mk.injEq]
    omega
  · rw [set_sector_count_eq, if_neg (by omega), Option.some_bind,
      set_sector_index_eq, if_neg (by omega)]
    simp only [Option.some.injEq, VoxelRegionBlockInfo.mk.injEq]
    omega
  · rw [get_sector_index_eq]
    show (i * 256 + c) / 256 = i
    omega
  · rw [get_sector_count_eq]
    show (i * 256 + c) % 256 = c
    omega

theorem packed_layout_witness :
    0xabcdef ≤ 2 ^ 24 - 1 ∧ 0x12 ≤ 255 ∧
    ((⟨0xdeadbeef⟩ : VoxelRegionBlockInfo).set_sector_index 0xabcdef).bind
      (fun b1 => b1.set_sector_count 0x12) = some ⟨0xabcdef * 256 + 0x12⟩ ∧
    ((⟨0xdeadbeef⟩ : VoxelRegionBlockInfo).set_sector_count 0x12).bind
      (fun b1 => b1.set_sector_index 0xabcdef) = some ⟨0xabcdef * 256 + 0x12⟩ :=
  ⟨by decide, by decide,
    (packed_layout ⟨0xdeadbeef⟩ 0xabcdef 0x12 (by decide) (by decide)).1,
    (packed_layout ⟨0xdeadbeef⟩ 0xabcdef 0x12 (by decide) (by decide)).2.1⟩

/-- C9: on a locator holding a 32-bit word, `set_sector_index(i)` with
`i ≤ 2^24 - 1` returns and leaves `get_sector_count()` as it was, and
`set_sector_count(c)` with `c ≤ 255` returns and leaves `get_sector_index()`
as it was. -/
theorem locator_fields_independent (b : VoxelRegionBlockInfo) (i c : Nat)
    (hb : b.data < 2 ^ 32) (hi : i ≤ 2 ^ 24 - 1) (hc : c ≤ 255) :
    (b.set_sector_index i).map VoxelRegionBlockInfo.get_sector_count
      = some b.get_sector_count ∧
    (b.set_sector_count c).map VoxelRegionBlockInfo.get_sector_index
      = some b.get_sector_index := by
  constructor
  · rw [set_sector_index_eq, if_neg (by omega)]
    simp only [Option.map_some', get_sector_count_eq, Option.some.injEq]
    omega
  · rw [set_sector_count_eq, if_neg (by omega)]
    simp only [Option.map_some', get_sector_index_eq, Option.some.injEq]
    omega

theorem locator_fields_independent_witness :
    (⟨0xdeadbeef⟩ : VoxelRegionBlockInfo).data < 2 ^ 32 ∧ 0x123456 ≤ 2 ^ 24 - 1 ∧
    0x7f ≤ 255 ∧
    ((⟨0xdeadbeef⟩ : VoxelRegionBlockInfo).set_sector_index 0x123456).map
        VoxelRegionBlockInfo.get_sector_count
      = some (⟨0xdeadbeef⟩ : VoxelRegionBlockInfo).get_sector_count ∧
    ((⟨0xdeadbeef⟩ : VoxelRegionBlockInfo).set_sector_count 0x7f).map
        VoxelRegionBlockInfo.get_sector_index
      = some (⟨0xdeadbeef⟩ : VoxelRegionBlockInfo).get_sector_index :=
  ⟨by decide, by decide, by decide,
    locator_fields_independent ⟨0xdeadbeef⟩ 0x123456 0x7f (by decide) (by decide) (by decide)⟩

/-! ## The index/position mapping: claim -/

theorem row_major_decode (sx sy x y z : Int) (hx0 : 0 ≤ x) (hx : x < sx)
    (hy0 : 0 ≤ y) (hy : y < sy) :
    (x + sx * (y + sy * z)) % sx = x ∧
    (x + sx * (y + sy * z)) / sx % sy = y ∧
    (x + sx * (y + sy * z)) / (sx * sy) = z := by
  have hsx : sx ≠ 0 := by omega
  have e1 : (x + sx * (y + sy * z)) / sx = y + sy * z := by
    rw [Int.add_mul_ediv_left _ _ hsx, Int.ediv_eq_zero_of_lt hx0 hx, zero_add]
  refine ⟨?_, ?_, ?_⟩
  · rw [Int.add_mul_emod_self_left, Int.emod_eq_of_lt hx0 hx]
  · rw [e1, Int.add_mul_emod_self_left, Int.emod_eq_of_lt hy0 hy]
  · have hlow0 : 0 ≤ x + sx * y := by
      have := mul_nonneg (by omega : (0 : Int) ≤ sx) hy0
      omega
    have hlow : x + sx * y < sx * sy := by nlinarith
    have hne : sx * sy ≠ 0 := by
      have : 0 < sx * sy := by nlinarith
      omega
    have e : x + sx * (y + sy * z) = (x + sx * y) + (sx * sy) * z := by ring
    rw [e, Int.add_mul_ediv_left _ _ hne, Int.ediv_eq_zero_of_lt hlow0 hlow, zero_add]

theorem row_major_range (sx sy sz x y z : Int) (hx0 : 0 ≤ x) (hx : x < sx)
    (hy0 : 0 ≤ y) (hy : y < sy) (hz0 : 0 ≤ z) (hz : z < sz) :
    0 ≤ x + sx * (y + sy * z) ∧ x + sx * (y + sy * z) < sx * sy * sz := by
  have hsx : 0 ≤ sx := by omega
  have hsy : 0 ≤ sy := by omega
  have h1 : 0 ≤ sy * z := mul_nonneg hsy hz0
  have h2 : 0 ≤ sx * (y + sy * z) := mul_nonneg hsx (by omega)
  have h3 : sy * z ≤ sy * (sz - 1) := mul_le_mul_of_nonneg_left (by omega) hsy
  have h4 : sx * (y + sy * z) ≤ sx * (sy * sz - 1) :=
    mul_le_mul_of_nonneg_left (by nlinarith) hsx
  constructor
  · omega
  · nlinarith

theorem row_major_encode (sx sy sz i : Int) (hi0 : 0 ≤ i) (hi : i < sx * sy * sz)
    (hsx : 0 < sx) (hsy : 0 < sy) :
    (0 ≤ i % sx ∧ i % sx < sx) ∧ (0 ≤ i / sx % sy ∧ i / sx % sy < sy) ∧
    (0 ≤ i / (sx * sy) ∧ i / (sx * sy) < sz) ∧
    i % sx + sx * (i / sx % sy + sy * (i / (sx * sy))) = i := by
  have hxa := Int.emod_nonneg i (by omega : sx ≠ 0)
  have hxb := Int.emod_lt_of_pos i hsx
  have hya := Int.emod_nonneg (i / sx) (by omega : sy ≠ 0)
  have hyb := Int.emod_lt_of_pos (i / sx) hsy
  have e1 : i % sx + sx * (i / sx) = i := Int.emod_add_ediv i sx
  have e2 : i / sx % sy + sy * (i / sx / sy) = i / sx := Int.emod_add_ediv (i / sx) sy
  have e3 : i = i % sx + sx * (i / sx % sy + sy * (i / sx / sy)) := by
    rw [e2, e1]
  have hz : i / (sx * sy) = i / sx / sy := by
    have h := (row_major_decode sx sy (i % sx) (i / sx % sy) (i / sx / sy) hxa hxb hya hyb).2.2
    rw [← e3] at h
    exact h
  have hpos : 0 < sx * sy := mul_pos hsx hsy
  refine ⟨⟨hxa, hxb⟩, ⟨hya, hyb⟩, ⟨Int.ediv_nonneg hi0 (le_of_lt hpos), ?_⟩, ?_⟩
  · apply Int.ediv_lt_of_lt_mul hpos
    calc i < sx * sy * sz := hi
      _ = sz * (sx * sy) := by ring
  · rw [hz]
    exact e3.symm

/-- C7: in a region of size `rs`, for every position `p` with
`0 ≤ p < rs` on each axis, `get_block_position_from_index` of
`get_block_index_in_header p` is `p` and that index is below
`rs.x * rs.y * rs.z`; conversely every index `i` below that product is the
index of the position `get_block_position_from_index i`, which lies in the
grid. -/
theorem index_position_bijection (rs p : Vector3i)
    (hx : 0 ≤ p.x ∧ p.x < rs.x) (hy : 0 ≤ p.y ∧ p.y < rs.y) (hz : 0 ≤ p.z ∧ p.z < rs.z) :
    VoxelRegionFile.get_block_position_from_index rs
        (VoxelRegionFile.get_block_index_in_header rs p) = p ∧
    ((VoxelRegionFile.get_block_index_in_header rs p : Nat) : Int) < rs.x * rs.y * rs.z ∧
    ∀ i : Nat, (i : Int) < rs.x * rs.y * rs.z →
      (0 ≤ (VoxelRegionFile.get_block_position_from_index rs i).x ∧
        (VoxelRegionFile.get_block_position_from_index rs i).x < rs.x) ∧
      (0 ≤ (VoxelRegionFile.get_block_position_from_index rs i).y ∧
        (VoxelRegionFile.get_block_position_from_index rs i).y < rs.y) ∧
      (0 ≤ (VoxelRegionFile.get_block_position_from_index rs i).z ∧
        (VoxelRegionFile.get_block_position_from_index rs i).z < rs.z) ∧
      VoxelRegionFile.get_block_index_in_header rs
        (VoxelRegionFile.get_block_position_from_index rs i) = i := by
  obtain ⟨sx, sy, sz⟩ := rs
  obtain ⟨x, y, z⟩ := p
  simp only at hx hy hz
  have hr := row_major_range sx sy sz x y z hx.1 hx.2 hy.1 hy.2 hz.1 hz.2
  have hd := row_major_decode sx sy x y z hx.1 hx.2 hy.1 hy.2
  have hn : ((x + sx * (y + sy * z)).toNat : Int) = x + sx * (y + sy * z) :=
    Int.toNat_of_nonneg hr.1
  refine ⟨?_, ?_, ?_⟩
  · simp only [VoxelRegionFile.get_block_position_from_index,
      VoxelRegionFile.get_block_index_in_header, hn, hd.1, hd.2.1, hd.2.2]
  · simp only [VoxelRegionFile.get_block_index_in_header, hn]
    exact hr.2
  · intro i hi
    have he := row_major_encode sx sy sz i (Int.ofNat_nonneg i) hi (by omega) (by omega)
    simp only [VoxelRegionFile.get_block_position_from_index,
      VoxelRegionFile.get_block_index_in_header]
    refine ⟨he.1, he.2.1, he.2.2.1, ?_⟩
    rw [he.2.2.2]
    exact Int.toNat_ofNat i

theorem index_position_bijection_witness :
    ((0 : Int) ≤ 1 ∧ (1 : Int) < 4) ∧ ((0 : Int) ≤ 2 ∧ (2 : Int) < 4) ∧
    ((0 : Int) ≤ 3 ∧ (3 : Int) < 4) ∧
    VoxelRegionFile.get_block_position_from_index ⟨4, 4, 4⟩
      (VoxelRegionFile.get_block_index_in_header ⟨4, 4, 4⟩ ⟨1, 2, 3⟩) = ⟨1, 2, 3⟩ :=
  ⟨by decide, by decide, by decide,
    (index_position_bijection ⟨4, 4, 4⟩ ⟨1, 2, 3⟩ (by decide) (by decide) (by decide)).1⟩

/-! ## The height sampler: claim -/

theorem tdiv_two_odd (k : Int) (hk : 0 ≤ k) : max 0 (Int.tdiv (2 * k + 1) 2) = k := by
  rw [Int.tdiv_eq_ediv (by omega) (by omega)]
  omega

theorem height_sampler_centred {F : Type} (A : FloatOps F) (wrap : Int → Int → Int)
    (image : Image F) (blur_enabled repeat_enabled : Bool) (x z : Int) :
    VoxelGeneratorImage.height_sampler A wrap image blur_enabled repeat_enabled true x z =
    VoxelGeneratorImage.height_sampler A wrap image blur_enabled repeat_enabled false
      (x + max 0 (Int.tdiv image.get_width 2)) (z + max 0 (Int.tdiv image.get_height 2)) := by
  simp [VoxelGeneratorImage.height_sampler]

theorem height_sampler_repeat_pixel {F : Type} (A : FloatOps F) (wrap : Int → Int → Int)
    (image : Image F) (x z : Int) :
    VoxelGeneratorImage.height_sampler A wrap image false true false x z =
      image.get_pixel_r (wrap x image.get_width) (wrap z image.get_height) := by
  simp [VoxelGeneratorImage.height_sampler, VoxelGeneratorImage.get_height_repeat]

/-- C10: let `x1`, `z1` be the coordinate after the optional centring shift:
`x + max(0, width / 2)`, `z + max(0, height / 2)` (truncating division) when
centring is on, `x`, `z` when it is off.  With repeat disabled the sampler
returns the literal zero whenever `(x1, z1)` lies outside the image, whatever
the blur setting.  When repeat is enabled or `(x1, z1)` lies inside, the
sampler is the blurred or plain height read at `(x1, z1)`; in particular with
repeat on and blur off it is the pixel at `(wrap x1 width, wrap z1 height)`.
The centred sampler is the uncentred one at the shifted coordinate, and for a
width `2k+1` with `0 ≤ k` the shift of `x` is `k` (likewise `m` for a height
`2m+1`). -/
theorem height_sampler_shift_and_outside {F : Type} (A : FloatOps F)
    (wrap : Int → Int → Int) (image : Image F)
    (blur_enabled repeat_enabled centered : Bool) (x z : Int) :
    (((if centered then x + max 0 (Int.tdiv image.get_width 2) else x) < 0 ∨
        (if centered then z + max 0 (Int.tdiv image.get_height 2) else z) < 0 ∨
        (if centered then x + max 0 (Int.tdiv image.get_width 2) else x) ≥ image.get_width ∨
        (if centered then z + max 0 (Int.tdiv image.get_height 2) else z) ≥ image.get_height) →
      VoxelGeneratorImage.height_sampler A wrap image blur_enabled false centered x z
        = A.zero) ∧
    ((repeat_enabled = true ∨
        (0 ≤ (if centered then x + max 0 (Int.tdiv image.get_width 2) else x) ∧
         0 ≤ (if centered then z + max 0 (Int.tdiv image.get_height 2) else z) ∧
         (if centered then x + max 0 (Int.tdiv image.get_width 2) else x) < image.get_width ∧
         (if centered then z + max 0 (Int.tdiv image.get_height 2) else z)
           < image.get_height)) →
      VoxelGeneratorImage.height_sampler A wrap image blur_enabled repeat_enabled centered x z
        = if blur_enabled then
            VoxelGeneratorImage.get_height_blurred A wrap image
              (if centered then x + max 0 (Int.tdiv image.get_width 2) else x)
              (if centered then z + max 0 (Int.tdiv image.get_height 2) else z)
          else
            VoxelGeneratorImage.get_height_repeat wrap image
              (if centered then x + max 0 (Int.tdiv image.get_width 2) else x)
              (if centered then z + max 0 (Int.tdiv image.get_height 2) else z)) ∧
    VoxelGeneratorImage.height_sampler A wrap image false true true x z =
      image.get_pixel_r (wrap (x + max 0 (Int.tdiv image.get_width 2)) image.get_width)
        (wrap (z + max 0 (Int.tdiv image.get_height 2)) image.get_height) ∧
    VoxelGeneratorImage.height_sampler A wrap image false true false x z =
      image.get_pixel_r (wrap x image.get_width) (wrap z image.get_height) ∧
    VoxelGeneratorImage.height_sampler A wrap image blur_enabled repeat_enabled true x z =
      VoxelGeneratorImage.height_sampler A wrap image blur_enabled repeat_enabled false
        (x + max 0 (Int.tdiv image.get_width 2)) (z + max 0 (Int.tdiv image.get_height 2)) ∧
    (∀ k : Int, 0 ≤ k → image.get_width = 2 * k + 1 →
      VoxelGeneratorImage.height_sampler A wrap image blur_enabled repeat_enabled true x z =
        VoxelGeneratorImage.height_sampler A wrap image blur_enabled repeat_enabled false
          (x + k) (z + max 0 (Int.tdiv image.get_height 2))) ∧
    (∀ m : Int, 0 ≤ m → image.get_height = 2 * m + 1 →
      VoxelGeneratorImage.height_sampler A wrap image blur_enabled repeat_enabled true x z =
        VoxelGeneratorImage.height_sampler A wrap image blur_enabled repeat_enabled false
          (x + max 0 (Int.tdiv image.get_width 2)) (z + m)) ∧
    (∀ k m : Int, 0 ≤ k → 0 ≤ m → image.get_width = 2 * k + 1 →
      image.get_height = 2 * m + 1 →
      VoxelGeneratorImage.height_sampler A wrap image false true true x z =
        image.get_pixel_r (wrap (x + k) image.get_width) (wrap (z + m) image.get_height)) := by
  have hshift := height_sampler_centred A wrap image blur_enabled repeat_enabled x z
  have hpix : VoxelGeneratorImage.height_sampler A wrap image false true true x z =
      image.get_pixel_r (wrap (x + max 0 (Int.tdiv image.get_width 2)) image.get_width)
        (wrap (z + max 0 (Int.tdiv image.get_height 2)) image.get_height) := by
    rw [height_sampler_centred, height_sampler_repeat_pixel]
  refine ⟨?_, ?_, hpix, height_sampler_repeat_pixel A wrap image x z, hshift, ?_, ?_, ?_⟩
  · intro hout
    unfold VoxelGeneratorImage.height_sampler
    simp only []
    rw [if_pos]
    simp only [Bool.not_false, Bool.true_and, Bool.or_eq_true, decide_eq_true_eq]
    rcases hout with h | h | h | h
    · exact Or.inl (Or.inl (Or.inl h))
    · exact Or.inl (Or.inl (Or.inr h))
    · exact Or.inl (Or.inr h)
    · exact Or.inr h
  · intro hin
    unfold VoxelGeneratorImage.height_sampler
    simp only []
    rw [if_neg]
    simp only [Bool.and_eq_true, Bool.not_eq_true', Bool.or_eq_true, decide_eq_true_eq,
      not_and, not_or, not_lt, ge_iff_le, not_le]
    intro hr
    rcases hin with h | h
    · rw [hr] at h
      cases h
    · exact ⟨⟨⟨h.1, h.2.1⟩, h.2.2.1⟩, h.2.2.2⟩
  · intro k hk hw
    rw [hshift, hw, tdiv_two_odd k hk]
  · intro m hm hh
    rw [hshift, hh, tdiv_two_odd m hm]
  · intro k m hk hm hw hh
    rw [hpix]
    rw [show max 0 (Int.tdiv image.get_width 2) = k from by rw [hw]; exact tdiv_two_odd k hk,
      show max 0 (Int.tdiv image.get_height 2) = m from by rw [hh]; exact tdiv_two_odd m hm]

theorem height_sampler_shift_and_outside_witness :
    VoxelGeneratorImage.height_sampler (F := Int) ⟨0, 5, fun a b => a + b, fun a b => a * b⟩
      (fun a d => a % d) ⟨3, 3, fun a b => a + 10 * b + 1⟩ true false true (-2) 0 = 0 ∧
    VoxelGeneratorImage.height_sampler (F := Int) ⟨0, 5, fun a b => a + b, fun a b => a * b⟩
      (fun a d => a % d) ⟨3, 3, fun a b => a + 10 * b + 1⟩ false false true 0 0 = 12 ∧
    VoxelGeneratorImage.height_sampler (F := Int) ⟨0, 5, fun a b => a + b, fun a b => a * b⟩
      (fun a d => a % d) ⟨3, 3, fun a b => a + 10 * b + 1⟩ false true true 0 0
      = (fun a b : Int => a + 10 * b + 1) ((0 + 1) % 3) ((0 + 1) % 3) :=
  ⟨(height_sampler_shift_and_outside (F := Int) ⟨0, 5, fun a b => a + b, fun a b => a * b⟩
      (fun a d => a % d) ⟨3, 3, fun a b => a + 10 * b + 1⟩ true false true (-2) 0).1
      (by decide),
    (height_sampler_shift_and_outside (F := Int) ⟨0, 5, fun a b => a + b, fun a b => a * b⟩
      (fun a d => a % d) ⟨3, 3, fun a b => a + 10 * b + 1⟩ false false true 0 0).2.1
      (Or.inr (by decide)),
    (height_sampler_shift_and_outside (F := Int) ⟨0, 5, fun a b => a + b, fun a b => a * b⟩
      (fun a d => a % d) ⟨3, 3, fun a b => a + 10 * b + 1⟩ false true true 0 0).2.2.2.2.2.2.2
      1 1 (by decide) (by decide) rfl rfl⟩
